import Mathlib

/-!
Shallow embedding of the task-chainz core: the `TaskManager` contract
(task lifecycle + escrow) and the `ReputationNFT` contract (scores, tiers,
achievements).  Solidity `uint256` values are modelled as `Nat` and `int256`
as `Int`; each external function is one EVM transaction, so a failed
`require` (or a revert bubbling up from an unguarded external call) is
modelled as an `Except.error` that leaves the pre-state untouched, exactly
like an EVM revert.  `try f() {} catch {}` around a call is modelled by
keeping the callee's old state when the call fails.
-/

namespace TaskChainz

/-- Account address; `0` plays the role of Solidity's zero address
(`address(0)`), used for an unassigned `worker`. -/
abbrev Addr := Nat

/-! ## ReputationNFT -/

/-- Reputation tiers, from `ReputationNFT.ReputationTier`. -/
inductive Tier where
  | Bronze
  | Silver
  | Gold
  | Platinum
  | Diamond
deriving DecidableEq, Repr

/-- The five achievement ids hard-coded in `ReputationNFT._checkAchievements`. -/
inductive Ach where
  | FIRST_TASK
  | TASK_VETERAN
  | TASK_MASTER
  | BIG_EARNER
  | DISPUTE_CHAMPION
deriving DecidableEq, Repr

/-- Per-token reputation data (`ReputationNFT.ReputationData`); the
`mapping(bytes32 => bool) achievements` is modelled by one Bool per
hard-coded achievement id (only those five keys are ever written). -/
structure RepData where
  score : Nat
  tier : Tier
  tasksCompleted : Nat
  tasksCreated : Nat
  totalEarned : Nat
  totalStaked : Nat
  disputesWon : Nat
  disputesLost : Nat
  achFirstTask : Bool
  achTaskVeteran : Bool
  achTaskMaster : Bool
  achBigEarner : Bool
  achDisputeChampion : Bool
deriving DecidableEq, Repr

/-- The reputation record a freshly minted NFT starts with
(`ReputationNFT.mintReputationNFT`): zero score, Bronze tier, zero counters,
no achievements. -/
def freshRepData : RepData :=
  { score := 0, tier := .Bronze, tasksCompleted := 0, tasksCreated := 0,
    totalEarned := 0, totalStaked := 0, disputesWon := 0, disputesLost := 0,
    achFirstTask := false, achTaskVeteran := false, achTaskMaster := false,
    achBigEarner := false, achDisputeChampion := false }

/-- Whether `d` has achievement `a` unlocked. -/
def hasAch (d : RepData) : Ach → Bool
  | .FIRST_TASK => d.achFirstTask
  | .TASK_VETERAN => d.achTaskVeteran
  | .TASK_MASTER => d.achTaskMaster
  | .BIG_EARNER => d.achBigEarner
  | .DISPUTE_CHAMPION => d.achDisputeChampion

/-- The unlock predicate of each achievement, from the five conditions in
`ReputationNFT._checkAchievements` (`10000 ether` = `10000 * 10^18`). -/
def achCond (d : RepData) : Ach → Bool
  | .FIRST_TASK => decide (1 ≤ d.tasksCompleted)
  | .TASK_VETERAN => decide (100 ≤ d.tasksCompleted)
  | .TASK_MASTER => decide (1000 ≤ d.tasksCompleted)
  | .BIG_EARNER => decide (10000 * 10 ^ 18 ≤ d.totalEarned)
  | .DISPUTE_CHAMPION => decide (50 ≤ d.disputesWon)

/-- `ReputationNFT._calculateTier`. -/
def calculateTier (score : Nat) : Tier :=
  if 100000 ≤ score then .Diamond
  else if 20000 ≤ score then .Platinum
  else if 5000 ≤ score then .Gold
  else if 1000 ≤ score then .Silver
  else .Bronze

/-- `ReputationNFT._checkAchievements`: each of the five checks sets its own
flag (if currently unset and the predicate holds) and emits one
`AchievementUnlocked` event.  The source runs the five checks sequentially,
but each touches a distinct flag and the predicates read only the counters,
so the checks are independent; the returned list keeps the source's order. -/
def checkAchievements (d : RepData) : RepData × List Ach :=
  let f1 := !d.achFirstTask && achCond d .FIRST_TASK
  let f2 := !d.achTaskVeteran && achCond d .TASK_VETERAN
  let f3 := !d.achTaskMaster && achCond d .TASK_MASTER
  let f4 := !d.achBigEarner && achCond d .BIG_EARNER
  let f5 := !d.achDisputeChampion && achCond d .DISPUTE_CHAMPION
  ({ d with
      achFirstTask := d.achFirstTask || f1,
      achTaskVeteran := d.achTaskVeteran || f2,
      achTaskMaster := d.achTaskMaster || f3,
      achBigEarner := d.achBigEarner || f4,
      achDisputeChampion := d.achDisputeChampion || f5 },
    (if f1 then [Ach.FIRST_TASK] else []) ++
    (if f2 then [Ach.TASK_VETERAN] else []) ++
    (if f3 then [Ach.TASK_MASTER] else []) ++
    (if f4 then [Ach.BIG_EARNER] else []) ++
    (if f5 then [Ach.DISPUTE_CHAMPION] else []))

/-- The score update inside `ReputationNFT.updateReputation`: clamp at zero
when subtracting more than the current score, otherwise
`uint256(int256(score) + scoreChange)`. -/
def updateScore (score : Nat) (scoreChange : Int) : Nat :=
  if scoreChange < 0 && decide (score < (-scoreChange).toNat) then 0
  else ((score : Int) + scoreChange).toNat

/-- Body of `ReputationNFT.updateReputation` on one record: update score
(clamped), add to `tasksCompleted`, recompute the tier from the new score,
then run the achievement checks; also returns the unlock events. -/
def updateReputationData (d : RepData) (scoreChange : Int)
    (tasksCompletedDelta : Nat) : RepData × List Ach :=
  let d := { d with
              score := updateScore d.score scoreChange,
              tasksCompleted := d.tasksCompleted + tasksCompletedDelta }
  let d := { d with tier := calculateTier d.score }
  checkAchievements d

/-- Body of `ReputationNFT.recordTaskStats` on one record. -/
def recordTaskStatsData (d : RepData) (earned : Nat) (isCreator : Bool) :
    RepData :=
  if isCreator then
    { d with tasksCreated := d.tasksCreated + 1,
             totalStaked := d.totalStaked + earned }
  else
    { d with totalEarned := d.totalEarned + earned }

/-- Body of `ReputationNFT.recordDisputeResult` on one record. -/
def recordDisputeResultData (d : RepData) (won : Bool) : RepData :=
  if won then { d with disputesWon := d.disputesWon + 1 }
  else { d with disputesLost := d.disputesLost + 1 }

/-- The `ReputationNFT` registry: one record per address that has minted a
reputation NFT (the `_userTokenId` / `_reputationData` pair; an address
absent from the list is one whose token id is the `0` sentinel). -/
abbrev RepMap := List (Addr × RepData)

/-- Look up the reputation record of `user`; `none` models
`_userTokenId[user] == 0`. -/
def lookupRep : RepMap → Addr → Option RepData
  | [], _ => none
  | (a, d) :: rest, user => if a = user then some d else lookupRep rest user

/-- Replace the record stored for `user` (no-op on absent keys; callers only
use it after a successful lookup). -/
def setRep : RepMap → Addr → RepData → RepMap
  | [], _, _ => []
  | (a, d) :: rest, user, d0 =>
    if a = user then (a, d0) :: rest else (a, d) :: setRep rest user d0

namespace ReputationNFT

/-- `ReputationNFT.updateReputation`: reverts (`none`) when the user holds no
reputation NFT, otherwise updates the record and reports unlock events. -/
def updateReputation (m : RepMap) (user : Addr) (scoreChange : Int)
    (tasksCompletedDelta : Nat) : Option (RepMap × List Ach) :=
  match lookupRep m user with
  | none => none
  | some d =>
    let r := updateReputationData d scoreChange tasksCompletedDelta
    some (setRep m user r.1, r.2)

/-- `ReputationNFT.recordTaskStats`: reverts (`none`) when the user holds no
reputation NFT. -/
def recordTaskStats (m : RepMap) (user : Addr) (earned : Nat)
    (isCreator : Bool) : Option RepMap :=
  match lookupRep m user with
  | none => none
  | some d => some (setRep m user (recordTaskStatsData d earned isCreator))

/-- `ReputationNFT.recordDisputeResult`: reverts (`none`) when the user holds
no reputation NFT. -/
def recordDisputeResult (m : RepMap) (user : Addr) (won : Bool) :
    Option RepMap :=
  match lookupRep m user with
  | none => none
  | some d => some (setRep m user (recordDisputeResultData d won))

end ReputationNFT

/-- `try reputationNFT.updateReputation(...) {} catch {}`: on failure the
caller keeps the old registry state. -/
def tryUpdateReputation (m : RepMap) (user : Addr) (scoreChange : Int)
    (tasksCompletedDelta : Nat) : RepMap :=
  match ReputationNFT.updateReputation m user scoreChange tasksCompletedDelta with
  | some (m2, _) => m2
  | none => m

/-- `try reputationNFT.recordTaskStats(...) {} catch {}`. -/
def tryRecordTaskStats (m : RepMap) (user : Addr) (earned : Nat)
    (isCreator : Bool) : RepMap :=
  match ReputationNFT.recordTaskStats m user earned isCreator with
  | some m2 => m2
  | none => m

/-- `try reputationNFT.recordDisputeResult(...) {} catch {}`. -/
def tryRecordDisputeResult (m : RepMap) (user : Addr) (won : Bool) : RepMap :=
  match ReputationNFT.recordDisputeResult m user won with
  | some m2 => m2
  | none => m

/-! ## TaskManager -/

/-- `TaskManager.TaskStatus`. -/
inductive TaskStatus where
  | Open
  | Assigned
  | Submitted
  | Completed
  | Disputed
  | Cancelled
deriving DecidableEq, Repr

/-- `TaskManager.TaskCategory` (opaque to every operation; carried only for
fidelity of the `Task` record). -/
inductive TaskCategory where
  | Development
  | Design
  | Writing
  | Marketing
  | Research
  | DataEntry
  | Testing
  | Other
deriving DecidableEq, Repr

/-- `TaskManager.Task`. -/
structure Task where
  id : Nat
  creator : Addr
  worker : Addr
  ipfsHash : String
  bounty : Nat
  deadline : Nat
  status : TaskStatus
  category : TaskCategory
  createdAt : Nat
  completedAt : Nat
  submissionHash : String
  requiredReputation : Nat
  isUrgent : Bool
deriving DecidableEq, Repr

/-- `TaskManager.TaskStake` (the escrow record for one task). -/
structure TaskStake where
  amount : Nat
  stakedAt : Nat
  withdrawn : Bool
deriving DecidableEq, Repr

/-- Error kinds for the `require` messages and bubbled-up reverts of the
`TaskManager` functions, grouped by the spec's taxonomy (§7):
`InvalidState` covers "Task not open/assigned/submitted/disputed" and
"Cannot cancel completed task"; `AlreadyReleased` covers "Stake already
withdrawn"; `NoReputationNFT` is the revert bubbling out of an unguarded
`ReputationNFT` call ("User has no reputation NFT" / "No reputation NFT"). -/
inductive Err where
  | Unauthorized
  | InvalidState
  | InvalidInput
  | DeadlinePassed
  | NotApplied
  | AlreadyApplied
  | SelfApplication
  | AlreadyReleased
  | InsufficientReputation
  | NoReputationNFT
  | ConfigOutOfRange
  | ArithUnderflow
deriving DecidableEq, Repr

/-- The state one task's lifecycle operates on: the task record and its
stake from the `TaskManager` mappings, the contract-wide fee configuration,
the `ReputationNFT` registry, the task's application list
(`hasApplied[taskId]`), and `credits`, a log of every token transfer
OUT of the escrow contract (`taskToken.safeTransfer`) as
(recipient, amount) pairs.  Operations on other tasks never touch these
fields except `feeRate` and `rep`, whose changes are covered by the
`setFee` / reputation operations below. -/
structure TMState where
  task : Task
  stake : TaskStake
  feeRate : Nat
  feeCollector : Addr
  rep : RepMap
  applied : List Addr
  credits : List (Addr × Nat)
deriving DecidableEq, Repr

/-- `BASIS_POINTS`. -/
def BASIS_POINTS : Nat := 10000

/-- `MAX_FEE_PERCENT`. -/
def MAX_FEE_PERCENT : Nat := 1000

/-- `TaskManager.createTask`: validates the inputs, escrows the bounty
(`safeTransferFrom` into the contract; the debit is not part of the
outflow log), and builds the task in `Open` with a fresh stake.  `feeRate`,
`feeCollector` and `rep` are the ambient contract state at creation time. -/
def createTask (creator : Addr) (ipfsHash : String) (bounty deadline : Nat)
    (category : TaskCategory) (requiredReputation : Nat) (isUrgent : Bool)
    (now : Nat) (feeRate : Nat) (feeCollector : Addr) (rep : RepMap) :
    Except Err TMState :=
  if ipfsHash = "" then .error .InvalidInput
  else if bounty = 0 then .error .InvalidInput
  else if ¬ (now < deadline) then .error .InvalidInput
  else .ok
    { task := { id := 0, creator := creator, worker := 0,
                ipfsHash := ipfsHash, bounty := bounty, deadline := deadline,
                status := .Open, category := category, createdAt := now,
                completedAt := 0, submissionHash := "",
                requiredReputation := requiredReputation,
                isUrgent := isUrgent },
      stake := { amount := bounty, stakedAt := now, withdrawn := false },
      feeRate := feeRate, feeCollector := feeCollector, rep := rep,
      applied := [], credits := [] }

/-- `TaskManager.applyForTask`. -/
def applyForTask (s : TMState) (applicant : Addr) (now : Nat) :
    Except Err TMState :=
  if s.task.status ≠ .Open then .error .InvalidState
  else if s.task.creator = applicant then .error .SelfApplication
  else if applicant ∈ s.applied then .error .AlreadyApplied
  else if ¬ (now < s.task.deadline) then .error .DeadlinePassed
  else if 0 < s.task.requiredReputation then
    match lookupRep s.rep applicant with
    | none => .error .NoReputationNFT
    | some d =>
      if d.score < s.task.requiredReputation then
        .error .InsufficientReputation
      else .ok { s with applied := s.applied ++ [applicant] }
  else .ok { s with applied := s.applied ++ [applicant] }

/-- `TaskManager.assignTask`. -/
def assignTask (s : TMState) (worker actor : Addr) (now : Nat) :
    Except Err TMState :=
  if s.task.creator ≠ actor then .error .Unauthorized
  else if s.task.status ≠ .Open then .error .InvalidState
  else if worker ∉ s.applied then .error .NotApplied
  else if ¬ (now < s.task.deadline) then .error .DeadlinePassed
  else .ok { s with task := { s.task with
                                worker := worker,
                                status := .Assigned } }

/-- `TaskManager.submitTask`: note the source checks `task.worker ==
msg.sender` BEFORE the status check, so on a task with no worker assigned
(`worker == address(0)`) every caller fails with "Not assigned worker". -/
def submitTask (s : TMState) (submissionHash : String) (actor : Addr) :
    Except Err TMState :=
  if s.task.worker ≠ actor then .error .Unauthorized
  else if s.task.status ≠ .Assigned then .error .InvalidState
  else if submissionHash = "" then .error .InvalidInput
  else .ok { s with task := { s.task with
                                submissionHash := submissionHash,
                                status := .Submitted } }

/-- The platform-fee computation `(task.bounty * platformFeePercent) /
BASIS_POINTS` shared by `approveTask` and `resolveDispute`. -/
def feeOf (s : TMState) : Nat := s.task.bounty * s.feeRate / BASIS_POINTS

/-- `TaskManager.approveTask`: creator-only, requires `Submitted`; pays
`bounty - fee` to the worker and `fee` to the fee collector, marks the
stake withdrawn, then calls the three `ReputationNFT` updates WITHOUT
try/catch ("let calls fail loudly for atomicity") — if any of them reverts
(user without an NFT) the whole transaction reverts.  `bounty - fee` is the
source's checked `uint256` subtraction. -/
def approveTask (s : TMState) (actor : Addr) (now : Nat) :
    Except Err TMState :=
  if s.task.creator ≠ actor then .error .Unauthorized
  else if s.task.status ≠ .Submitted then .error .InvalidState
  else if s.task.bounty < feeOf s then .error .ArithUnderflow
  else
    match ReputationNFT.updateReputation s.rep s.task.worker
            ((s.task.bounty / 1000 : Nat) : Int) 1 with
    | none => .error .NoReputationNFT
    | some (rep1, _) =>
      match ReputationNFT.recordTaskStats rep1 s.task.worker
              s.task.bounty false with
      | none => .error .NoReputationNFT
      | some rep2 =>
        match ReputationNFT.recordTaskStats rep2 s.task.creator
                s.task.bounty true with
        | none => .error .NoReputationNFT
        | some rep3 => .ok
          { s with
              task := { s.task with
                          status := .Completed,
                          completedAt := now },
              stake := { s.stake with withdrawn := true },
              rep := rep3,
              credits := s.credits ++
                [(s.task.worker, s.task.bounty - feeOf s)] ++
                (if 0 < feeOf s then [(s.feeCollector, feeOf s)] else []) }

/-- `TaskManager.cancelTask`: creator or admin; requires `Open` or
`Assigned` (checked before the stake), then an un-withdrawn stake; refunds
the full bounty to the creator. -/
def cancelTask (s : TMState) (actor : Addr) (isAdmin : Bool) :
    Except Err TMState :=
  if ¬ (s.task.creator = actor ∨ isAdmin) then .error .Unauthorized
  else if ¬ (s.task.status = .Open ∨ s.task.status = .Assigned) then
    .error .InvalidState
  else if s.stake.withdrawn then .error .AlreadyReleased
  else .ok
    { s with
        task := { s.task with status := .Cancelled },
        stake := { s.stake with withdrawn := true },
        credits := s.credits ++ [(s.task.creator, s.task.bounty)] }

/-- `TaskManager.initiateDispute`. -/
def initiateDispute (s : TMState) (actor : Addr) : Except Err TMState :=
  if ¬ (s.task.creator = actor ∨ s.task.worker = actor) then
    .error .Unauthorized
  else if ¬ (s.task.status = .Submitted ∨ s.task.status = .Assigned) then
    .error .InvalidState
  else .ok { s with task := { s.task with status := .Disputed } }

/-- `TaskManager.resolveDispute`: resolver-role only, requires `Disputed`
and an un-withdrawn stake.  Favor-creator refunds the full bounty to the
creator; favor-worker pays `bounty - fee` to the worker and `fee` to the
collector.  EVERY reputation call here is wrapped in `try {} catch {}` in
the source, so a failing update is silently skipped.  In both branches the
task ends `Completed` with `completedAt` set and the stake withdrawn. -/
def resolveDispute (s : TMState) (favorCreator : Bool) (isResolver : Bool)
    (now : Nat) : Except Err TMState :=
  if ¬ isResolver then .error .Unauthorized
  else if s.task.status ≠ .Disputed then .error .InvalidState
  else if s.stake.withdrawn then .error .AlreadyReleased
  else if favorCreator then
    .ok { s with
            task := { s.task with
                        status := .Completed,
                        completedAt := now },
            stake := { s.stake with withdrawn := true },
            rep := tryRecordDisputeResult
              (tryRecordDisputeResult
                (tryUpdateReputation s.rep s.task.worker
                  (-((s.task.bounty / 2000 : Nat) : Int)) 0)
                s.task.creator true)
              s.task.worker false,
            credits := s.credits ++ [(s.task.creator, s.task.bounty)] }
  else if s.task.bounty < feeOf s then .error .ArithUnderflow
  else
    .ok { s with
            task := { s.task with
                        status := .Completed,
                        completedAt := now },
            stake := { s.stake with withdrawn := true },
            rep := tryRecordDisputeResult
              (tryRecordDisputeResult
                (tryRecordTaskStats
                  (tryUpdateReputation s.rep s.task.worker
                    ((s.task.bounty / 1000 : Nat) : Int) 1)
                  s.task.worker s.task.bounty false)
                s.task.worker true)
              s.task.creator false,
            credits := s.credits ++
              [(s.task.worker, s.task.bounty - feeOf s)] ++
              (if 0 < feeOf s then [(s.feeCollector, feeOf s)] else []) }

/-- `TaskManager.updatePlatformFee` (admin-only, capped at
`MAX_FEE_PERCENT`). -/
def updatePlatformFee (s : TMState) (newFeePercent : Nat) (isAdmin : Bool) :
    Except Err TMState :=
  if ¬ isAdmin then .error .Unauthorized
  else if MAX_FEE_PERCENT < newFeePercent then .error .ConfigOutOfRange
  else .ok { s with feeRate := newFeePercent }

/-- One external call on the task, with its caller-context parameters
(actor addresses, role bits, `block.timestamp`). -/
inductive Op where
  | applyFor (applicant : Addr) (now : Nat)
  | assign (worker actor : Addr) (now : Nat)
  | submit (submissionHash : String) (actor : Addr)
  | approve (actor : Addr) (now : Nat)
  | cancel (actor : Addr) (isAdmin : Bool)
  | dispute (actor : Addr)
  | resolve (favorCreator : Bool) (isResolver : Bool) (now : Nat)
  | setFee (newFeePercent : Nat) (isAdmin : Bool)
deriving DecidableEq, Repr

/-- Dispatch one call. -/
def step (op : Op) (s : TMState) : Except Err TMState :=
  match op with
  | .applyFor applicant now => applyForTask s applicant now
  | .assign worker actor now => assignTask s worker actor now
  | .submit submissionHash actor => submitTask s submissionHash actor
  | .approve actor now => approveTask s actor now
  | .cancel actor isAdmin => cancelTask s actor isAdmin
  | .dispute actor => initiateDispute s actor
  | .resolve favorCreator isResolver now =>
      resolveDispute s favorCreator isResolver now
  | .setFee newFeePercent isAdmin => updatePlatformFee s newFeePercent isAdmin

/-- Run one call with EVM transaction semantics: a revert leaves the state
unchanged. -/
def exec (op : Op) (s : TMState) : TMState :=
  match step op s with
  | .ok s2 => s2
  | .error _ => s

/-- Run a sequence of calls. -/
def run (ops : List Op) (s : TMState) : TMState :=
  match ops with
  | [] => s
  | op :: rest => run rest (exec op s)

/-- Total amount ever credited out of the task's escrow. -/
def creditTotal (s : TMState) : Nat :=
  (s.credits.map Prod.snd).sum

/-- Total amount in a credit log going to address `a`. -/
def amountTo (a : Addr) : List (Addr × Nat) → Nat
  | [] => 0
  | (b, x) :: rest => (if b = a then x else 0) + amountTo a rest

/-- Amount credited out of escrow to one particular address. -/
def creditsOf (s : TMState) (a : Addr) : Nat := amountTo a s.credits

/-- The operations that move funds out of escrow. -/
def isFundOp : Op → Bool
  | .approve _ _ => true
  | .cancel _ _ => true
  | .resolve _ _ _ => true
  | _ => false

/-- Number of successful fund-moving calls along a trace. -/
def fundSuccesses (ops : List Op) (s : TMState) : Nat :=
  match ops with
  | [] => 0
  | op :: rest =>
    (if isFundOp op ∧ (step op s).isOk then 1 else 0) +
      fundSuccesses rest (exec op s)

/-! ## Characterization lemmas for the operations -/

lemma exec_of_error {op : Op} {s : TMState} {e : Err}
    (h : step op s = .error e) : exec op s = s := by
  simp [exec, h]

lemma exec_of_ok {op : Op} {s s2 : TMState}
    (h : step op s = .ok s2) : exec op s = s2 := by
  simp [exec, h]

lemma applyForTask_ok {s s2 : TMState} {a : Addr} {n : Nat}
    (h : applyForTask s a n = .ok s2) :
    s.task.status = .Open ∧ s2.task = s.task ∧ s2.stake = s.stake ∧
      s2.credits = s.credits ∧ s2.rep = s.rep ∧ s2.feeRate = s.feeRate ∧
      s2.feeCollector = s.feeCollector := by
  unfold applyForTask at h
  repeat' split at h
  all_goals try exact Except.noConfusion h
  all_goals injection h with h
  all_goals subst h
  all_goals try simp_all [not_lt]
  all_goals tauto

lemma assignTask_ok {s s2 : TMState} {w a : Addr} {n : Nat}
    (h : assignTask s w a n = .ok s2) :
    s.task.status = .Open ∧ s2.task.status = .Assigned ∧
      s2.task.bounty = s.task.bounty ∧ s2.stake = s.stake ∧
      s2.credits = s.credits ∧ s2.rep = s.rep ∧ s2.feeRate = s.feeRate ∧
      s2.feeCollector = s.feeCollector := by
  unfold assignTask at h
  repeat' split at h
  all_goals try exact Except.noConfusion h
  all_goals injection h with h
  all_goals subst h
  all_goals try simp_all [not_lt]
  all_goals tauto

lemma submitTask_ok {s s2 : TMState} {sub : String} {a : Addr}
    (h : submitTask s sub a = .ok s2) :
    s.task.status = .Assigned ∧ s2.task.status = .Submitted ∧
      s2.task.bounty = s.task.bounty ∧ s2.stake = s.stake ∧
      s2.credits = s.credits ∧ s2.rep = s.rep ∧ s2.feeRate = s.feeRate ∧
      s2.feeCollector = s.feeCollector := by
  unfold submitTask at h
  repeat' split at h
  all_goals try exact Except.noConfusion h
  all_goals injection h with h
  all_goals subst h
  all_goals try simp_all [not_lt]
  all_goals tauto

lemma initiateDispute_ok {s s2 : TMState} {a : Addr}
    (h : initiateDispute s a = .ok s2) :
    (s.task.status = .Submitted ∨ s.task.status = .Assigned) ∧
      s2.task.status = .Disputed ∧ s2.task.bounty = s.task.bounty ∧
      s2.stake = s.stake ∧ s2.credits = s.credits ∧ s2.rep = s.rep ∧
      s2.feeRate = s.feeRate ∧ s2.feeCollector = s.feeCollector := by
  unfold initiateDispute at h
  repeat' split at h
  all_goals try exact Except.noConfusion h
  all_goals injection h with h
  all_goals subst h
  all_goals try simp_all [not_lt]
  all_goals tauto

lemma updatePlatformFee_ok {s s2 : TMState} {f : Nat} {adm : Bool}
    (h : updatePlatformFee s f adm = .ok s2) :
    s2.task = s.task ∧ s2.stake = s.stake ∧ s2.credits = s.credits ∧
      s2.rep = s.rep ∧ s2.feeCollector = s.feeCollector := by
  unfold updatePlatformFee at h
  repeat' split at h
  all_goals try exact Except.noConfusion h
  all_goals injection h with h
  all_goals subst h
  all_goals try simp_all [not_lt]
  all_goals tauto

lemma approveTask_ok {s s2 : TMState} {a : Addr} {n : Nat}
    (h : approveTask s a n = .ok s2) :
    s.task.creator = a ∧ s.task.status = .Submitted ∧
      feeOf s ≤ s.task.bounty ∧
      s2.task.status = .Completed ∧ s2.task.bounty = s.task.bounty ∧
      s2.task.worker = s.task.worker ∧ s2.task.creator = s.task.creator ∧
      s2.stake.withdrawn = true ∧ s2.feeRate = s.feeRate ∧
      s2.feeCollector = s.feeCollector ∧
      s2.credits = s.credits ++
        [(s.task.worker, s.task.bounty - feeOf s)] ++
        (if 0 < feeOf s then [(s.feeCollector, feeOf s)] else []) := by
  unfold approveTask at h
  repeat' split at h
  all_goals try exact Except.noConfusion h
  all_goals injection h with h
  all_goals subst h
  all_goals try simp_all [not_lt]
  all_goals tauto

lemma cancelTask_ok {s s2 : TMState} {a : Addr} {adm : Bool}
    (h : cancelTask s a adm = .ok s2) :
    (s.task.status = .Open ∨ s.task.status = .Assigned) ∧
      s.stake.withdrawn = false ∧ s2.task.status = .Cancelled ∧
      s2.task.bounty = s.task.bounty ∧ s2.stake.withdrawn = true ∧
      s2.rep = s.rep ∧ s2.feeRate = s.feeRate ∧
      s2.feeCollector = s.feeCollector ∧
      s2.credits = s.credits ++ [(s.task.creator, s.task.bounty)] := by
  unfold cancelTask at h
  repeat' split at h
  all_goals try exact Except.noConfusion h
  all_goals injection h with h
  all_goals subst h
  all_goals try simp_all [not_lt]
  all_goals tauto

lemma resolveDispute_ok {s s2 : TMState} {fc res : Bool} {n : Nat}
    (h : resolveDispute s fc res n = .ok s2) :
    res = true ∧ s.task.status = .Disputed ∧ s.stake.withdrawn = false ∧
      s2.task.status = .Completed ∧ s2.task.bounty = s.task.bounty ∧
      s2.task.worker = s.task.worker ∧ s2.task.creator = s.task.creator ∧
      s2.stake.withdrawn = true ∧ s2.feeRate = s.feeRate ∧
      s2.feeCollector = s.feeCollector ∧
      (if fc then s2.credits = s.credits ++ [(s.task.creator, s.task.bounty)]
       else
        feeOf s ≤ s.task.bounty ∧
        s2.credits = s.credits ++
          [(s.task.worker, s.task.bounty - feeOf s)] ++
          (if 0 < feeOf s then [(s.feeCollector, feeOf s)] else [])) := by
  unfold resolveDispute at h
  repeat' split at h
  all_goals try exact Except.noConfusion h
  all_goals injection h with h
  all_goals subst h
  all_goals try simp_all [not_lt]
  all_goals tauto

lemma approveTask_error_of_not_submitted {s : TMState} {a : Addr} {n : Nat}
    (h : s.task.status ≠ .Submitted) : ∃ e, approveTask s a n = .error e := by
  unfold approveTask
  split
  · exact ⟨_, rfl⟩
  · exact ⟨_, rfl⟩

lemma cancelTask_error_of_terminal {s : TMState} {a : Addr} {adm : Bool}
    (h : ¬ (s.task.status = .Open ∨ s.task.status = .Assigned)) :
    ∃ e, cancelTask s a adm = .error e := by
  unfold cancelTask
  split
  · exact ⟨_, rfl⟩
  · exact ⟨_, rfl⟩

lemma resolveDispute_error_of_not_disputed {s : TMState} {fc res : Bool}
    {n : Nat} (h : s.task.status ≠ .Disputed) :
    ∃ e, resolveDispute s fc res n = .error e := by
  unfold resolveDispute
  split
  · exact ⟨_, rfl⟩
  · exact ⟨_, rfl⟩

lemma step_fundOp_error_of_terminal {op : Op} {s : TMState}
    (hf : isFundOp op = true)
    (ht : s.task.status = .Completed ∨ s.task.status = .Cancelled) :
    ∃ e, step op s = .error e := by
  cases op with
  | approve a n =>
    exact approveTask_error_of_not_submitted
      (by rcases ht with h | h <;> simp [h])
  | cancel a adm =>
    exact cancelTask_error_of_terminal
      (by rcases ht with h | h <;> simp [h])
  | resolve fc res n =>
    exact resolveDispute_error_of_not_disputed
      (by rcases ht with h | h <;> simp [h])
  | applyFor a n => simp [isFundOp] at hf
  | assign w a n => simp [isFundOp] at hf
  | submit sub a => simp [isFundOp] at hf
  | dispute a => simp [isFundOp] at hf
  | setFee f adm => simp [isFundOp] at hf

lemma creditTotal_append_payout {s s2 : TMState} {w c : Addr} {B fee : Nat}
    (hfee : fee ≤ B)
    (h : s2.credits = s.credits ++ [(w, B - fee)] ++
      (if 0 < fee then [(c, fee)] else [])) :
    creditTotal s2 = creditTotal s + B := by
  rcases Nat.eq_zero_or_pos fee with h0 | h0 <;>
    simp [creditTotal, h, h0, Nat.not_lt_of_le, List.map_append] <;> omega

/-! ## Exactly-once payout invariant -/

/-- The per-task escrow invariant: the bounty is immutable, and the task is
either still live (stake not withdrawn, nothing ever credited out of its
escrow) or settled (stake withdrawn, exactly the bounty credited out, and
the task in a terminal status). -/
def ExactlyOnceInv (B : Nat) (s : TMState) : Prop :=
  s.task.bounty = B ∧
  ((s.stake.withdrawn = false ∧ creditTotal s = 0) ∨
   (s.stake.withdrawn = true ∧ creditTotal s = B ∧
     (s.task.status = .Completed ∨ s.task.status = .Cancelled)))

lemma exec_preserves_inv {B : Nat} (op : Op) (s : TMState)
    (hInv : ExactlyOnceInv B s) :
    ExactlyOnceInv B (exec op s) ∧
    (s.stake.withdrawn = true →
      ¬ (isFundOp op = true ∧ (step op s).isOk = true)) ∧
    (¬ (isFundOp op = true ∧ (step op s).isOk = true) →
      creditTotal (exec op s) = creditTotal s ∧
        (exec op s).stake.withdrawn = s.stake.withdrawn) ∧
    (isFundOp op = true ∧ (step op s).isOk = true →
      (exec op s).stake.withdrawn = true) := by
  obtain ⟨hB, hd⟩ := hInv
  rcases hstep : step op s with e | s2
  · rw [exec_of_error hstep]
    refine ⟨⟨hB, hd⟩, ?_, fun _ => ⟨rfl, rfl⟩, ?_⟩
    · rintro _ ⟨_, hok⟩
      exact Bool.noConfusion hok
    · rintro ⟨_, hok⟩
      exact Bool.noConfusion hok
  · rw [exec_of_ok hstep]
    cases op with
    | applyFor a n =>
      obtain ⟨hsrc, ht, hstk, hcr, _⟩ := applyForTask_ok hstep
      refine ⟨⟨by rw [ht, hB], ?_⟩, by simp [isFundOp], ?_, by simp [isFundOp]⟩
      · rcases hd with ⟨hw, hc⟩ | ⟨hw, _, hterm⟩
        · exact Or.inl ⟨by rw [hstk, hw], by simpa [creditTotal, hcr] using hc⟩
        · rcases hterm with h | h <;> simp [h] at hsrc
      · exact fun _ => ⟨by simp [creditTotal, hcr], by rw [hstk]⟩
    | assign w a n =>
      obtain ⟨hsrc, ht2, hb2, hstk, hcr, _⟩ := assignTask_ok hstep
      refine ⟨⟨by rw [hb2, hB], ?_⟩, by simp [isFundOp], ?_, by simp [isFundOp]⟩
      · rcases hd with ⟨hw, hc⟩ | ⟨hw, _, hterm⟩
        · exact Or.inl ⟨by rw [hstk, hw], by simpa [creditTotal, hcr] using hc⟩
        · rcases hterm with h | h <;> simp [h] at hsrc
      · exact fun _ => ⟨by simp [creditTotal, hcr], by rw [hstk]⟩
    | submit sub a =>
      obtain ⟨hsrc, ht2, hb2, hstk, hcr, _⟩ := submitTask_ok hstep
      refine ⟨⟨by rw [hb2, hB], ?_⟩, by simp [isFundOp], ?_, by simp [isFundOp]⟩
      · rcases hd with ⟨hw, hc⟩ | ⟨hw, _, hterm⟩
        · exact Or.inl ⟨by rw [hstk, hw], by simpa [creditTotal, hcr] using hc⟩
        · rcases hterm with h | h <;> simp [h] at hsrc
      · exact fun _ => ⟨by simp [creditTotal, hcr], by rw [hstk]⟩
    | dispute a =>
      obtain ⟨hsrc, ht2, hb2, hstk, hcr, _⟩ := initiateDispute_ok hstep
      refine ⟨⟨by rw [hb2, hB], ?_⟩, by simp [isFundOp], ?_, by simp [isFundOp]⟩
      · rcases hd with ⟨hw, hc⟩ | ⟨hw, _, hterm⟩
        · exact Or.inl ⟨by rw [hstk, hw], by simpa [creditTotal, hcr] using hc⟩
        · rcases hterm with h | h <;> simp [h] at hsrc
      · exact fun _ => ⟨by simp [creditTotal, hcr], by rw [hstk]⟩
    | setFee f adm =>
      obtain ⟨ht2, hstk, hcr, _⟩ := updatePlatformFee_ok hstep
      refine ⟨⟨by rw [ht2, hB], ?_⟩, by simp [isFundOp], ?_, by simp [isFundOp]⟩
      · rcases hd with ⟨hw, hc⟩ | ⟨hw, hc, hterm⟩
        · exact Or.inl ⟨by rw [hstk, hw], by simpa [creditTotal, hcr] using hc⟩
        · exact Or.inr ⟨by rw [hstk, hw], by simpa [creditTotal, hcr] using hc,
            by rw [ht2]; exact hterm⟩
      · exact fun _ => ⟨by simp [creditTotal, hcr], by rw [hstk]⟩
    | approve a n =>
      obtain ⟨hca, hsrc, hfee, ht2, hb2, _, _, hwd2, _, _, hcr⟩ :=
        approveTask_ok hstep
      have hw : s.stake.withdrawn = false := by
        rcases hd with ⟨hw, _⟩ | ⟨_, _, hterm⟩
        · exact hw
        · rcases hterm with h | h <;> simp [h] at hsrc
      have hc0 : creditTotal s = 0 := by
        rcases hd with ⟨_, hc⟩ | ⟨hw2, _, _⟩
        · exact hc
        · exact absurd (hw.symm.trans hw2) (by simp)
      have hsum : creditTotal s2 = creditTotal s + s.task.bounty :=
        creditTotal_append_payout hfee hcr
      refine ⟨⟨by rw [hb2, hB], Or.inr ⟨hwd2, ?_, Or.inl ht2⟩⟩, ?_, ?_, ?_⟩
      · omega
      · intro hwt; exact absurd (hw.symm.trans hwt) (by simp)
      · intro hno; exact absurd ⟨rfl, rfl⟩ hno
      · exact fun _ => hwd2
    | cancel a adm =>
      obtain ⟨hsrc, hw, ht2, hb2, hwd2, _, _, _, hcr⟩ := cancelTask_ok hstep
      have hc0 : creditTotal s = 0 := by
        rcases hd with ⟨_, hc⟩ | ⟨hw2, _, _⟩
        · exact hc
        · exact absurd (hw.symm.trans hw2) (by simp)
      have hsum : creditTotal s2 = creditTotal s + s.task.bounty := by
        simp [creditTotal, hcr, List.map_append]
      refine ⟨⟨by rw [hb2, hB], Or.inr ⟨hwd2, ?_, Or.inr ht2⟩⟩, ?_, ?_, ?_⟩
      · omega
      · intro hwt; exact absurd (hw.symm.trans hwt) (by simp)
      · intro hno; exact absurd ⟨rfl, rfl⟩ hno
      · exact fun _ => hwd2
    | resolve fc res n =>
      obtain ⟨_, hsrc, hw, ht2, hb2, _, _, hwd2, _, _, hcr⟩ :=
        resolveDispute_ok hstep
      have hc0 : creditTotal s = 0 := by
        rcases hd with ⟨_, hc⟩ | ⟨hw2, _, _⟩
        · exact hc
        · exact absurd (hw.symm.trans hw2) (by simp)
      have hsum : creditTotal s2 = creditTotal s + s.task.bounty := by
        rcases hfc : fc with _ | _
        · rw [hfc, if_neg (by simp)] at hcr
          exact creditTotal_append_payout hcr.1 hcr.2
        · rw [hfc, if_pos rfl] at hcr
          simp [creditTotal, hcr, List.map_append]
      refine ⟨⟨by rw [hb2, hB], Or.inr ⟨hwd2, ?_, Or.inl ht2⟩⟩, ?_, ?_, ?_⟩
      · omega
      · intro hwt; exact absurd (hw.symm.trans hwt) (by simp)
      · intro hno; exact absurd ⟨rfl, rfl⟩ hno
      · exact fun _ => hwd2

lemma run_exactly_once {B : Nat} :
    ∀ (ops : List Op) (s : TMState), ExactlyOnceInv B s →
    ExactlyOnceInv B (run ops s) ∧
    (s.stake.withdrawn = false →
      fundSuccesses ops s ≤ 1 ∧
        creditTotal (run ops s) = fundSuccesses ops s * B) ∧
    (s.stake.withdrawn = true →
      fundSuccesses ops s = 0 ∧ creditTotal (run ops s) = B) := by
  intro ops
  induction ops with
  | nil =>
    intro s hInv
    obtain ⟨hB, hd⟩ := hInv
    refine ⟨⟨hB, hd⟩, ?_, ?_⟩
    · intro hw
      rcases hd with ⟨_, hc⟩ | ⟨hw2, _, _⟩
      · exact ⟨by simp [fundSuccesses], by simp [fundSuccesses, run, hc]⟩
      · exact absurd (hw.symm.trans hw2) (by simp)
    · intro hw
      rcases hd with ⟨hw2, _⟩ | ⟨_, hc, _⟩
      · exact absurd (hw2.symm.trans hw) (by simp)
      · exact ⟨rfl, by simpa [run] using hc⟩
  | cons op rest ih =>
    intro s hInv
    obtain ⟨hInv2, hP2, hP3, hP4⟩ := exec_preserves_inv op s hInv
    obtain ⟨ihInv, ihF, ihT⟩ := ih (exec op s) hInv2
    have hrun : run (op :: rest) s = run rest (exec op s) := rfl
    by_cases hfo : isFundOp op = true ∧ (step op s).isOk = true
    · have hcnt : fundSuccesses (op :: rest) s =
          1 + fundSuccesses rest (exec op s) := by
        simp only [fundSuccesses]
        rw [if_pos hfo]
      obtain ⟨hz, hcB⟩ := ihT (hP4 hfo)
      refine ⟨by rwa [hrun], ?_, ?_⟩
      · intro _
        rw [hcnt, hz, hrun, hcB]
        omega
      · intro hw
        exact absurd hfo (hP2 hw)
    · have hcnt : fundSuccesses (op :: rest) s =
          fundSuccesses rest (exec op s) := by
        simp only [fundSuccesses]
        rw [if_neg hfo]
        omega
      obtain ⟨hcs, hws⟩ := hP3 hfo
      refine ⟨by rwa [hrun], ?_, ?_⟩
      · intro hw
        obtain ⟨h1, h2⟩ := ihF (by rw [hws, hw])
        exact ⟨by rwa [hcnt], by rw [hcnt, hrun]; exact h2⟩
      · intro hw
        obtain ⟨h1, h2⟩ := ihT (by rw [hws, hw])
        exact ⟨by rwa [hcnt], by rw [hrun]; exact h2⟩

lemma createTask_ok {creator : Addr} {ipfsHash : String}
    {bounty deadline : Nat} {category : TaskCategory} {reqRep : Nat}
    {isUrgent : Bool} {now feeRate : Nat} {feeCollector : Addr}
    {rep : RepMap} {s0 : TMState}
    (h : createTask creator ipfsHash bounty deadline category reqRep
      isUrgent now feeRate feeCollector rep = .ok s0) :
    0 < bounty ∧ s0.task.bounty = bounty ∧ s0.task.status = .Open ∧
      s0.task.creator = creator ∧ s0.task.worker = 0 ∧
      s0.stake.withdrawn = false ∧ s0.credits = [] ∧
      s0.feeRate = feeRate ∧ s0.rep = rep := by
  unfold createTask at h
  repeat' split at h
  all_goals try exact Except.noConfusion h
  all_goals injection h with h
  all_goals subst h
  all_goals simp_all
  omega

/-- Claim C1: for any task created through `createTask`, along any sequence
of lifecycle calls (including any mix of `approveTask`, `resolveDispute`
and `cancelTask`), at most one call ever succeeds in moving funds out of
the task's escrow; the total credited out equals the bounty exactly when
one such call has succeeded (and is zero before); and once a fund-moving
call has succeeded every later fund-moving attempt fails (reverting, hence
crediting nothing). -/
theorem exactly_once_payout
    (creator : Addr) (ipfsHash : String) (bounty deadline : Nat)
    (category : TaskCategory) (reqRep : Nat) (isUrgent : Bool)
    (now feeRate : Nat) (feeCollector : Addr) (rep : RepMap)
    (s0 : TMState) (ops : List Op)
    (hcreate : createTask creator ipfsHash bounty deadline category reqRep
      isUrgent now feeRate feeCollector rep = .ok s0) :
    fundSuccesses ops s0 ≤ 1 ∧
    creditTotal (run ops s0) = fundSuccesses ops s0 * bounty ∧
    (fundSuccesses ops s0 = 1 →
      ∀ op, isFundOp op = true → ∃ e, step op (run ops s0) = .error e) := by
  obtain ⟨hpos, hB, _, _, _, hw0, hcr0, _, _⟩ := createTask_ok hcreate
  have hInv : ExactlyOnceInv bounty s0 :=
    ⟨hB, Or.inl ⟨hw0, by simp [creditTotal, hcr0]⟩⟩
  obtain ⟨hInvEnd, hF, _⟩ := run_exactly_once ops s0 hInv
  obtain ⟨hle, hcredit⟩ := hF hw0
  refine ⟨hle, hcredit, ?_⟩
  intro h1 op hop
  obtain ⟨_, hd⟩ := hInvEnd
  rcases hd with ⟨_, hc0⟩ | ⟨_, _, hterm⟩
  · rw [h1, one_mul] at hcredit
    rw [hcredit] at hc0
    omega
  · exact step_fundOp_error_of_terminal hop hterm

/-! ## Helper lemmas on the reputation registry and credit logs -/

lemma amountTo_append (a : Addr) (l1 l2 : List (Addr × Nat)) :
    amountTo a (l1 ++ l2) = amountTo a l1 + amountTo a l2 := by
  induction l1 with
  | nil => simp [amountTo]
  | cons p rest ih => simp [amountTo, ih]; omega

lemma lookupRep_setRep_self {m : RepMap} {u : Addr} {d0 : RepData}
    (d : RepData) (h : lookupRep m u = some d0) :
    lookupRep (setRep m u d) u = some d := by
  induction m with
  | nil => simp [lookupRep] at h
  | cons p rest ih =>
    by_cases hp : p.1 = u
    · simp [lookupRep, setRep, hp]
    · simp [lookupRep, setRep, hp] at h ⊢
      exact ih h

lemma lookupRep_setRep_ne {m : RepMap} {u v : Addr} (d : RepData)
    (h : u ≠ v) : lookupRep (setRep m u d) v = lookupRep m v := by
  induction m with
  | nil => simp [lookupRep, setRep]
  | cons p rest ih =>
    by_cases hp : p.1 = u
    · simp [lookupRep, setRep, hp, h]
    · simp only [setRep, lookupRep, if_neg hp]
      by_cases hv : p.1 = v <;> simp [lookupRep, hv, ih]

lemma lookupRep_setRep_isSome (m : RepMap) (u v : Addr) (d : RepData) :
    (lookupRep (setRep m u d) v).isSome = (lookupRep m v).isSome := by
  by_cases huv : u = v
  · subst huv
    rcases h : lookupRep m u with _ | d0
    · have : setRep m u d = m := by
        induction m with
        | nil => rfl
        | cons p rest ih =>
          simp only [lookupRep] at h
          by_cases hp : p.1 = u
          · rw [if_pos hp] at h; exact Option.noConfusion h
          · rw [if_neg hp] at h
            simp [setRep, hp, ih h]
      rw [this, h]
    · rw [lookupRep_setRep_self d h]; rfl
  · rw [lookupRep_setRep_ne d huv]

lemma updateReputation_some_isSome {m : RepMap} {u : Addr} {sc : Int}
    {tc : Nat} {r : RepMap × List Ach}
    (h : ReputationNFT.updateReputation m u sc tc = some r) :
    (lookupRep m u).isSome = true := by
  unfold ReputationNFT.updateReputation at h
  rcases hm : lookupRep m u with _ | d <;> rw [hm] at h
  · exact Option.noConfusion h
  · rfl

lemma updateReputation_some_shape {m : RepMap} {u : Addr} {sc : Int}
    {tc : Nat} {m2 : RepMap} {evs : List Ach}
    (h : ReputationNFT.updateReputation m u sc tc = some (m2, evs)) :
    ∃ d, lookupRep m u = some d ∧
      m2 = setRep m u (updateReputationData d sc tc).1 ∧
      evs = (updateReputationData d sc tc).2 := by
  unfold ReputationNFT.updateReputation at h
  rcases hm : lookupRep m u with _ | d <;> rw [hm] at h
  · exact Option.noConfusion h
  · injection h with h
    exact ⟨d, rfl, congrArg Prod.fst h.symm, congrArg Prod.snd h.symm⟩

lemma recordTaskStats_some_shape {m : RepMap} {u : Addr} {e : Nat}
    {c : Bool} {m2 : RepMap}
    (h : ReputationNFT.recordTaskStats m u e c = some m2) :
    ∃ d, lookupRep m u = some d ∧
      m2 = setRep m u (recordTaskStatsData d e c) := by
  unfold ReputationNFT.recordTaskStats at h
  rcases hm : lookupRep m u with _ | d <;> rw [hm] at h
  · exact Option.noConfusion h
  · injection h with h
    exact ⟨d, rfl, h.symm⟩

lemma recordDisputeResult_some_shape {m : RepMap} {u : Addr} {w : Bool}
    {m2 : RepMap}
    (h : ReputationNFT.recordDisputeResult m u w = some m2) :
    ∃ d, lookupRep m u = some d ∧
      m2 = setRep m u (recordDisputeResultData d w) := by
  unfold ReputationNFT.recordDisputeResult at h
  rcases hm : lookupRep m u with _ | d <;> rw [hm] at h
  · exact Option.noConfusion h
  · injection h with h
    exact ⟨d, rfl, h.symm⟩

lemma tryUpdateReputation_none {m : RepMap} {u : Addr} {sc : Int} {tc : Nat}
    (h : lookupRep m u = none) : tryUpdateReputation m u sc tc = m := by
  simp [tryUpdateReputation, ReputationNFT.updateReputation, h]

lemma tryUpdateReputation_some {m : RepMap} {u : Addr} {sc : Int} {tc : Nat}
    {d : RepData} (h : lookupRep m u = some d) :
    tryUpdateReputation m u sc tc =
      setRep m u (updateReputationData d sc tc).1 := by
  simp [tryUpdateReputation, ReputationNFT.updateReputation, h]

lemma tryRecordTaskStats_some {m : RepMap} {u : Addr} {e : Nat} {c : Bool}
    {d : RepData} (h : lookupRep m u = some d) :
    tryRecordTaskStats m u e c = setRep m u (recordTaskStatsData d e c) := by
  simp [tryRecordTaskStats, ReputationNFT.recordTaskStats, h]

lemma tryRecordDisputeResult_none {m : RepMap} {u : Addr} {w : Bool}
    (h : lookupRep m u = none) : tryRecordDisputeResult m u w = m := by
  simp [tryRecordDisputeResult, ReputationNFT.recordDisputeResult, h]

lemma tryRecordDisputeResult_some {m : RepMap} {u : Addr} {w : Bool}
    {d : RepData} (h : lookupRep m u = some d) :
    tryRecordDisputeResult m u w = setRep m u (recordDisputeResultData d w) := by
  simp [tryRecordDisputeResult, ReputationNFT.recordDisputeResult, h]

lemma feeOf_le (s : TMState) (hr : s.feeRate ≤ BASIS_POINTS) :
    feeOf s ≤ s.task.bounty := by
  unfold BASIS_POINTS at hr
  unfold feeOf BASIS_POINTS
  have h1 : s.task.bounty * s.feeRate ≤ s.task.bounty * 10000 :=
    Nat.mul_le_mul_left _ hr
  have h2 : s.task.bounty * 10000 / 10000 = s.task.bounty := by omega
  calc s.task.bounty * s.feeRate / 10000
      ≤ s.task.bounty * 10000 / 10000 := Nat.div_le_div_right h1
    _ = s.task.bounty := h2

lemma updateScore_eq_toNat (n : Nat) (sc : Int) :
    updateScore n sc = ((n : Int) + sc).toNat := by
  unfold updateScore
  split
  · next hcond =>
    simp only [Bool.and_eq_true, decide_eq_true_eq] at hcond
    omega
  · rfl

lemma updateScore_ofNat (n k : Nat) : updateScore n (k : Int) = n + k := by
  rw [updateScore_eq_toNat]
  omega

/-! Field projections through `checkAchievements`, `updateReputationData`,
`recordTaskStatsData` and `recordDisputeResultData`. -/

lemma checkAchievements_fields (d : RepData) :
    (checkAchievements d).1.score = d.score ∧
    (checkAchievements d).1.tier = d.tier ∧
    (checkAchievements d).1.tasksCompleted = d.tasksCompleted ∧
    (checkAchievements d).1.tasksCreated = d.tasksCreated ∧
    (checkAchievements d).1.totalEarned = d.totalEarned ∧
    (checkAchievements d).1.totalStaked = d.totalStaked ∧
    (checkAchievements d).1.disputesWon = d.disputesWon ∧
    (checkAchievements d).1.disputesLost = d.disputesLost :=
  ⟨rfl, rfl, rfl, rfl, rfl, rfl, rfl, rfl⟩

lemma updateReputationData_fields (d : RepData) (sc : Int) (tc : Nat) :
    (updateReputationData d sc tc).1.score = updateScore d.score sc ∧
    (updateReputationData d sc tc).1.tasksCompleted = d.tasksCompleted + tc ∧
    (updateReputationData d sc tc).1.tasksCreated = d.tasksCreated ∧
    (updateReputationData d sc tc).1.totalEarned = d.totalEarned ∧
    (updateReputationData d sc tc).1.totalStaked = d.totalStaked ∧
    (updateReputationData d sc tc).1.disputesWon = d.disputesWon ∧
    (updateReputationData d sc tc).1.disputesLost = d.disputesLost :=
  ⟨rfl, rfl, rfl, rfl, rfl, rfl, rfl⟩

lemma updateReputationData_tier_eq (d : RepData) (sc : Int) (tc : Nat) :
    (updateReputationData d sc tc).1.tier =
      calculateTier (updateReputationData d sc tc).1.score := rfl

lemma approveTask_ok_rep {s s2 : TMState} {a : Addr} {n : Nat}
    (h : approveTask s a n = .ok s2) :
    ∃ r1 evs r2,
      ReputationNFT.updateReputation s.rep s.task.worker
        ((s.task.bounty / 1000 : Nat) : Int) 1 = some (r1, evs) ∧
      ReputationNFT.recordTaskStats r1 s.task.worker s.task.bounty false =
        some r2 ∧
      ReputationNFT.recordTaskStats r2 s.task.creator s.task.bounty true =
        some s2.rep := by
  unfold approveTask at h
  repeat' split at h
  all_goals try exact Except.noConfusion h
  all_goals injection h with h
  all_goals subst h
  all_goals exact ⟨_, _, _, by assumption, by assumption, by assumption⟩

lemma resolveDispute_fc_ok_rep {s s2 : TMState} {res : Bool} {n : Nat}
    (h : resolveDispute s true res n = .ok s2) :
    s2.rep = tryRecordDisputeResult
      (tryRecordDisputeResult
        (tryUpdateReputation s.rep s.task.worker
          (-((s.task.bounty / 2000 : Nat) : Int)) 0)
        s.task.creator true)
      s.task.worker false := by
  unfold resolveDispute at h
  repeat' split at h
  all_goals try exact Except.noConfusion h
  all_goals try (injection h with h; subst h)
  all_goals first | rfl | simp_all

/-! ## Concrete fixtures used by witnesses and counterexamples -/

/-- Registry holding freshly minted reputation records for the creator
(address 1) and the worker (address 2). -/
def repBothC : RepMap := [(1, freshRepData), (2, freshRepData)]

/-- A freshly created task: creator 1, bounty 10000, deadline 100, fee rate
250 basis points, fee collector address 9. -/
def sOpenC : TMState :=
  { task := { id := 0, creator := 1, worker := 0, ipfsHash := "h",
              bounty := 10000, deadline := 100, status := .Open,
              category := .Development, createdAt := 10, completedAt := 0,
              submissionHash := "", requiredReputation := 0,
              isUrgent := false },
    stake := { amount := 10000, stakedAt := 10, withdrawn := false },
    feeRate := 250, feeCollector := 9, rep := repBothC,
    applied := [], credits := [] }

/-- `sOpenC` after worker 2 applies, is assigned by the creator, and
submits. -/
def sSubmittedC : TMState :=
  run [.applyFor 2 20, .assign 2 1 30, .submit "sub" 2] sOpenC

/-- `sSubmittedC` after the creator approves. -/
def sApprovedC : TMState := exec (.approve 1 50) sSubmittedC

/-- A disputed task (dispute raised by the creator from `Assigned`). -/
def sDisputedC : TMState :=
  run [.applyFor 2 20, .assign 2 1 30, .dispute 1] sOpenC

/-- `sDisputedC` after a favor-creator ruling. -/
def sResolvedC : TMState := exec (.resolve true true 70) sDisputedC

/-- Like `sSubmittedC` but the worker holds no reputation NFT. -/
def sSubmittedNoRepC : TMState :=
  run [.applyFor 2 20, .assign 2 1 30, .submit "sub" 2]
    { sOpenC with rep := [(1, freshRepData)] }

/-- A disputed task in a world with no reputation records at all. -/
def sDisputedNoRepC : TMState :=
  run [.applyFor 2 20, .assign 2 1 30, .dispute 1]
    { sOpenC with rep := [] }

/-! ## Claim C1 -/

/-- Witness for `exactly_once_payout`: a concrete creation followed by two
`cancelTask` calls; only the first can move the refund. -/
theorem exactly_once_payout_witness :
    createTask 1 "h" 10000 100 .Development 0 false 10 250 9 repBothC =
      .ok sOpenC ∧
    (fundSuccesses [.cancel 1 false, .cancel 1 false] sOpenC ≤ 1 ∧
     creditTotal (run [.cancel 1 false, .cancel 1 false] sOpenC) =
       fundSuccesses [.cancel 1 false, .cancel 1 false] sOpenC * 10000 ∧
     (fundSuccesses [.cancel 1 false, .cancel 1 false] sOpenC = 1 →
       ∀ op, isFundOp op = true →
         ∃ e, step op (run [.cancel 1 false, .cancel 1 false] sOpenC) =
           .error e)) :=
  ⟨rfl, exactly_once_payout 1 "h" 10000 100 .Development 0 false 10 250 9
    repBothC sOpenC [.cancel 1 false, .cancel 1 false] rfl⟩

/-! ## Claim C2 -/

/-- The legal source statuses of each lifecycle operation per the §4.1
state machine (`applyForTask` and the fee setter do not transition the
machine and are mapped to `true`). -/
def validSource (op : Op) (st : TaskStatus) : Bool :=
  match op with
  | .assign _ _ _ => decide (st = .Open)
  | .submit _ _ => decide (st = .Assigned)
  | .approve _ _ => decide (st = .Submitted)
  | .cancel _ _ => decide (st = .Open ∨ st = .Assigned)
  | .dispute _ => decide (st = .Assigned ∨ st = .Submitted)
  | .resolve _ _ _ => decide (st = .Disputed)
  | _ => true

/-- The six §4.1 lifecycle operations. -/
def isLifecycleOp : Op → Bool
  | .assign _ _ _ => true
  | .submit _ _ => true
  | .approve _ _ => true
  | .cancel _ _ => true
  | .dispute _ => true
  | .resolve _ _ _ => true
  | _ => false

/-- The actor-authorization `require` each operation checks before its
status check. -/
def actorAuthorized (op : Op) (s : TMState) : Bool :=
  match op with
  | .assign _ actor _ => decide (s.task.creator = actor)
  | .submit _ actor => decide (s.task.worker = actor)
  | .approve actor _ => decide (s.task.creator = actor)
  | .cancel actor isAdmin => decide (s.task.creator = actor) || isAdmin
  | .dispute actor =>
      decide (s.task.creator = actor) || decide (s.task.worker = actor)
  | .resolve _ res _ => res
  | _ => true

/-- Claim C2 (amended): for every (status, lifecycle operation) pair that
is not a §4.1 transition, a caller who passes the operation's
authorization check fails with `InvalidState` and the state is unchanged.
(As literally stated the claim is false: `submitTask` checks the worker
before the status, so on a task with no worker assigned every caller gets
`Unauthorized` instead — see the counterexample.) -/
theorem invalid_transition_rejected (op : Op) (s : TMState)
    (hop : isLifecycleOp op = true)
    (hauth : actorAuthorized op s = true)
    (hbad : validSource op s.task.status = false) :
    step op s = .error Err.InvalidState ∧ exec op s = s := by
  have hstep : step op s = .error Err.InvalidState := by
    cases op with
    | assign w actor n =>
      simp only [actorAuthorized, decide_eq_true_eq] at hauth
      simp only [validSource, decide_eq_false_iff_not] at hbad
      simp only [step, assignTask]
      rw [if_neg (not_not_intro hauth), if_pos hbad]
    | submit sub actor =>
      simp only [actorAuthorized, decide_eq_true_eq] at hauth
      simp only [validSource, decide_eq_false_iff_not] at hbad
      simp only [step, submitTask]
      rw [if_neg (not_not_intro hauth), if_pos hbad]
    | approve actor n =>
      simp only [actorAuthorized, decide_eq_true_eq] at hauth
      simp only [validSource, decide_eq_false_iff_not] at hbad
      simp only [step, approveTask]
      rw [if_neg (not_not_intro hauth), if_pos hbad]
    | cancel actor adm =>
      simp only [actorAuthorized, Bool.or_eq_true, decide_eq_true_eq]
        at hauth
      simp only [validSource, decide_eq_false_iff_not] at hbad
      simp only [step, cancelTask]
      rw [if_neg (not_not_intro hauth), if_pos hbad]
    | dispute actor =>
      simp only [actorAuthorized, Bool.or_eq_true, decide_eq_true_eq]
        at hauth
      simp only [validSource, decide_eq_false_iff_not] at hbad
      simp only [step, initiateDispute]
      rw [if_neg (not_not_intro hauth), if_pos (by tauto)]
    | resolve fc res n =>
      simp only [actorAuthorized] at hauth
      simp only [validSource, decide_eq_false_iff_not] at hbad
      simp only [step, resolveDispute]
      rw [if_neg (not_not_intro hauth), if_pos hbad]
    | applyFor a n => simp [isLifecycleOp] at hop
    | setFee f adm => simp [isLifecycleOp] at hop
  exact ⟨hstep, exec_of_error hstep⟩

/-- Witness for `invalid_transition_rejected`: `approveTask` by the
creator on an `Open` task fails `InvalidState` and changes nothing. -/
theorem invalid_transition_rejected_witness :
    isLifecycleOp (Op.approve 1 50) = true ∧
    actorAuthorized (Op.approve 1 50) sOpenC = true ∧
    validSource (Op.approve 1 50) sOpenC.task.status = false ∧
    step (Op.approve 1 50) sOpenC = .error Err.InvalidState ∧
    exec (Op.approve 1 50) sOpenC = sOpenC :=
  ⟨by decide, by decide, by decide,
    (invalid_transition_rejected (Op.approve 1 50) sOpenC (by decide)
      (by decide) (by decide)).1,
    (invalid_transition_rejected (Op.approve 1 50) sOpenC (by decide)
      (by decide) (by decide)).2⟩

/-- Counterexample to claim C2 as stated: `submitTask` on an `Open` task
(an invalid (status, operation) pair) fails with `Unauthorized`, not
`InvalidState`, because the worker check precedes the status check and an
`Open` task has no worker. -/
theorem invalid_transition_counterexample :
    validSource (Op.submit "p" 1) sOpenC.task.status = false ∧
    step (Op.submit "p" 1) sOpenC = .error Err.Unauthorized ∧
    Err.Unauthorized ≠ Err.InvalidState :=
  ⟨by decide, rfl, by decide⟩

/-! ## Claim C3 -/

/-- Claim C3: a successful `approveTask` with bounty `B` and fee rate `r`
basis points (`r ≤ 1000`) credits the worker exactly
`B - floor(B*r/10000)`, credits the fee recipient exactly
`floor(B*r/10000)`, and the two credits sum to `B`.  (The distinctness
hypothesis separates the two credit accounts.) -/
theorem fee_correctness (s s2 : TMState) (actor : Addr) (now : Nat)
    (hr : s.feeRate ≤ 1000)
    (hwc : s.task.worker ≠ s.feeCollector)
    (h : step (.approve actor now) s = .ok s2) :
    creditsOf s2 s.task.worker =
      creditsOf s s.task.worker +
        (s.task.bounty - s.task.bounty * s.feeRate / 10000) ∧
    creditsOf s2 s.feeCollector =
      creditsOf s s.feeCollector + s.task.bounty * s.feeRate / 10000 ∧
    (s.task.bounty - s.task.bounty * s.feeRate / 10000) +
      s.task.bounty * s.feeRate / 10000 = s.task.bounty := by
  obtain ⟨_, _, hfee, _, _, _, _, _, _, _, hcr⟩ := approveTask_ok h
  have hfe : feeOf s = s.task.bounty * s.feeRate / 10000 := rfl
  have h1 : amountTo s.task.worker
      (if 0 < feeOf s then [(s.feeCollector, feeOf s)] else []) = 0 := by
    split <;> simp [amountTo, Ne.symm hwc]
  have h2 : amountTo s.feeCollector
      [(s.task.worker, s.task.bounty - feeOf s)] = 0 := by
    simp [amountTo, hwc]
  have h3 : amountTo s.feeCollector
      (if 0 < feeOf s then [(s.feeCollector, feeOf s)] else []) = feeOf s := by
    split
    · simp [amountTo]
    · next hf => simp [amountTo]; omega
  refine ⟨?_, ?_, ?_⟩
  · rw [creditsOf, creditsOf, hcr, amountTo_append, amountTo_append, h1, hfe]
    simp [amountTo]
  · rw [creditsOf, creditsOf, hcr, amountTo_append, amountTo_append, h2, h3,
      hfe]
    omega
  · rw [hfe] at hfee
    omega

/-- Witness for `fee_correctness`: bounty 10000 at 250 bp yields 9750 to
the worker and 250 to the collector. -/
theorem fee_correctness_witness :
    sSubmittedC.feeRate ≤ 1000 ∧
    sSubmittedC.task.worker ≠ sSubmittedC.feeCollector ∧
    (creditsOf sApprovedC sSubmittedC.task.worker =
      creditsOf sSubmittedC sSubmittedC.task.worker +
        (sSubmittedC.task.bounty -
          sSubmittedC.task.bounty * sSubmittedC.feeRate / 10000) ∧
     creditsOf sApprovedC sSubmittedC.feeCollector =
      creditsOf sSubmittedC sSubmittedC.feeCollector +
        sSubmittedC.task.bounty * sSubmittedC.feeRate / 10000 ∧
     (sSubmittedC.task.bounty -
        sSubmittedC.task.bounty * sSubmittedC.feeRate / 10000) +
       sSubmittedC.task.bounty * sSubmittedC.feeRate / 10000 =
       sSubmittedC.task.bounty) :=
  ⟨by decide, by decide,
    fee_correctness sSubmittedC sApprovedC 1 50 (by decide) (by decide) rfl⟩

/-! ## Claim C6 -/

/-- Claim C6 (amended): after a successful `approveTask`, a second
`approveTask` on the same task always fails and changes nothing; when the
second caller is the creator the error is `InvalidState` ("Task not
submitted" — the status check fires first), NOT `AlreadyReleased` as the
claim states (`approveTask` in the TaskManager has no released-flag
check at all). -/
theorem approve_twice_fails (s s2 : TMState) (actor actor2 : Addr)
    (now now2 : Nat)
    (h : step (.approve actor now) s = .ok s2) :
    (∃ e, step (.approve actor2 now2) s2 = .error e) ∧
    (s2.task.creator = actor2 →
      step (.approve actor2 now2) s2 = .error Err.InvalidState) ∧
    exec (.approve actor2 now2) s2 = s2 := by
  obtain ⟨_, _, _, ht2, _⟩ := approveTask_ok h
  have hns : s2.task.status ≠ .Submitted := by rw [ht2]; simp
  refine ⟨approveTask_error_of_not_submitted hns, ?_, ?_⟩
  · intro hc2
    simp only [step, approveTask]
    rw [if_neg (not_not_intro hc2), if_pos hns]
  · obtain ⟨e, he⟩ :=
      approveTask_error_of_not_submitted (a := actor2) (n := now2) hns
    exact exec_of_error he

/-- Witness for `approve_twice_fails` on the concrete double-approval
scenario. -/
theorem approve_twice_fails_witness :
    step (Op.approve 1 50) sSubmittedC = .ok sApprovedC ∧
    ((∃ e, step (Op.approve 1 60) sApprovedC = .error e) ∧
     (sApprovedC.task.creator = 1 →
       step (Op.approve 1 60) sApprovedC = .error Err.InvalidState) ∧
     exec (Op.approve 1 60) sApprovedC = sApprovedC) :=
  ⟨rfl, approve_twice_fails sSubmittedC sApprovedC 1 1 50 60 rfl⟩

/-- Counterexample to claim C6 as stated: the second `approveTask` fails
with `InvalidState`, not `AlreadyReleased`. -/
theorem approve_twice_counterexample :
    step (Op.approve 1 50) sSubmittedC = .ok sApprovedC ∧
    step (Op.approve 1 60) sApprovedC = .error Err.InvalidState ∧
    Err.InvalidState ≠ Err.AlreadyReleased :=
  ⟨rfl, rfl, by decide⟩

/-! ## Claim C10 -/

/-- Claim C10: on a `Submitted` task whose worker holds no reputation NFT,
`approveTask` by the creator reverts as a whole with the bubbled-up
"User has no reputation NFT" error: no payment, no fee, task still
`Submitted` (the returned state is exactly the pre-state). -/
theorem approve_aborts_without_worker_reputation (s : TMState)
    (actor : Addr) (now : Nat)
    (hc : s.task.creator = actor) (hst : s.task.status = .Submitted)
    (hr : s.feeRate ≤ MAX_FEE_PERCENT)
    (hnone : lookupRep s.rep s.task.worker = none) :
    step (.approve actor now) s = .error Err.NoReputationNFT ∧
    exec (.approve actor now) s = s := by
  have hle : feeOf s ≤ s.task.bounty :=
    feeOf_le s (le_trans hr (by norm_num [MAX_FEE_PERCENT, BASIS_POINTS]))
  have hstep : step (.approve actor now) s = .error Err.NoReputationNFT := by
    simp only [step, approveTask]
    rw [if_neg (not_not_intro hc), if_neg (not_not_intro hst),
        if_neg (not_lt.mpr hle)]
    simp [ReputationNFT.updateReputation, hnone]
  exact ⟨hstep, exec_of_error hstep⟩

/-- Witness for `approve_aborts_without_worker_reputation` on the concrete
no-NFT scenario. -/
theorem approve_aborts_without_worker_reputation_witness :
    sSubmittedNoRepC.task.creator = 1 ∧
    sSubmittedNoRepC.task.status = .Submitted ∧
    sSubmittedNoRepC.feeRate ≤ MAX_FEE_PERCENT ∧
    lookupRep sSubmittedNoRepC.rep sSubmittedNoRepC.task.worker = none ∧
    (step (Op.approve 1 50) sSubmittedNoRepC = .error Err.NoReputationNFT ∧
     exec (Op.approve 1 50) sSubmittedNoRepC = sSubmittedNoRepC) :=
  ⟨by decide, by decide, by decide, by decide,
    approve_aborts_without_worker_reputation sSubmittedNoRepC 1 50
      (by decide) (by decide) (by decide) (by decide)⟩

/-! ## Claim C7 -/

/-- Claim C7 (amended): the two fund-moving-plus-reputation operations
behave differently.  `approveTask` calls the reputation contract
unguarded, so it can only succeed when both the worker and the creator
hold reputation records — a reputation failure aborts the whole call.
`resolveDispute`, however, wraps every reputation call in
`try {} catch {}`: a favor-creator ruling succeeds, keeps the registry
untouched and still moves the full bounty even when NO reputation records
exist — reputation failure there is silently ignored, contradicting the
claim as stated. -/
theorem reputation_atomicity_contrast :
    (∀ (s s2 : TMState) (actor : Addr) (now : Nat),
        step (.approve actor now) s = .ok s2 →
        (lookupRep s.rep s.task.worker).isSome = true ∧
        (lookupRep s.rep s.task.creator).isSome = true) ∧
    (∀ (s : TMState) (now : Nat),
        s.task.status = .Disputed → s.stake.withdrawn = false →
        lookupRep s.rep s.task.worker = none →
        lookupRep s.rep s.task.creator = none →
        (step (.resolve true true now) s).isOk = true ∧
        (exec (.resolve true true now) s).rep = s.rep ∧
        creditTotal (exec (.resolve true true now) s) =
          creditTotal s + s.task.bounty) := by
  constructor
  · intro s s2 actor now h
    obtain ⟨r1, evs, r2, h1, h2, h3⟩ := approveTask_ok_rep h
    refine ⟨updateReputation_some_isSome h1, ?_⟩
    obtain ⟨d1, hd1, hr1, _⟩ := updateReputation_some_shape h1
    obtain ⟨d2, hd2, hr2⟩ := recordTaskStats_some_shape h2
    obtain ⟨d3, hd3, _⟩ := recordTaskStats_some_shape h3
    have e1 : (lookupRep r2 s.task.creator).isSome = true := by
      rw [hd3]; rfl
    rw [hr2, lookupRep_setRep_isSome, hr1, lookupRep_setRep_isSome] at e1
    exact e1
  · intro s now hst hw hnw hnc
    have hrep : tryRecordDisputeResult
        (tryRecordDisputeResult
          (tryUpdateReputation s.rep s.task.worker
            (-((s.task.bounty / 2000 : Nat) : Int)) 0)
          s.task.creator true)
        s.task.worker false = s.rep := by
      rw [tryUpdateReputation_none hnw, tryRecordDisputeResult_none hnc,
          tryRecordDisputeResult_none hnw]
    have hstep : step (.resolve true true now) s = .ok
        { s with
            task := { s.task with
                        status := .Completed,
                        completedAt := now },
            stake := { s.stake with withdrawn := true },
            rep := s.rep,
            credits := s.credits ++ [(s.task.creator, s.task.bounty)] } := by
      simp only [step, resolveDispute]
      rw [if_neg (by simp), if_neg (not_not_intro hst),
          if_neg (by simp [hw]), if_pos trivial, hrep]
    refine ⟨by rw [hstep]; rfl, ?_, ?_⟩
    · rw [exec_of_ok hstep]
    · rw [exec_of_ok hstep]
      simp [creditTotal, List.map_append]

/-- Witness for `reputation_atomicity_contrast`: its second component at
the concrete record-free disputed state. -/
theorem reputation_atomicity_contrast_witness :
    sDisputedNoRepC.task.status = .Disputed ∧
    sDisputedNoRepC.stake.withdrawn = false ∧
    lookupRep sDisputedNoRepC.rep sDisputedNoRepC.task.worker = none ∧
    lookupRep sDisputedNoRepC.rep sDisputedNoRepC.task.creator = none ∧
    ((step (Op.resolve true true 70) sDisputedNoRepC).isOk = true ∧
     (exec (Op.resolve true true 70) sDisputedNoRepC).rep =
       sDisputedNoRepC.rep ∧
     creditTotal (exec (Op.resolve true true 70) sDisputedNoRepC) =
       creditTotal sDisputedNoRepC + sDisputedNoRepC.task.bounty) :=
  ⟨by decide, by decide, by decide, by decide,
    reputation_atomicity_contrast.2 sDisputedNoRepC 70 (by decide)
      (by decide) (by decide) (by decide)⟩

/-- Counterexample to claim C7 as stated: on a disputed task with no
reputation records at all, `resolveDispute` (favor-creator) succeeds, the
registry is unchanged (every reputation update silently failed), and the
full bounty still moves to the creator. -/
theorem reputation_atomicity_counterexample :
    lookupRep sDisputedNoRepC.rep sDisputedNoRepC.task.worker = none ∧
    (step (Op.resolve true true 70) sDisputedNoRepC).isOk = true ∧
    (exec (Op.resolve true true 70) sDisputedNoRepC).rep =
      sDisputedNoRepC.rep ∧
    creditTotal (exec (Op.resolve true true 70) sDisputedNoRepC) = 10000 :=
  ⟨by decide, rfl, rfl, by decide⟩

/-! ## Claim C4 -/

/-- Claim C4 (amended): a successful favor-creator `resolveDispute` (on a
`Disputed` task with an un-withdrawn stake, both parties holding
reputation records) refunds the full bounty to the creator with no fee
deducted, increments the creator's `disputesWon` and the worker's
`disputesLost` by one — but transitions the task to `Completed` (a
terminal status, NOT back to `Open`) and leaves the `worker` field set
(the task is not reassignable). -/
theorem resolve_favor_creator_spec (s s2 : TMState) (now : Nat)
    (dc dw : RepData)
    (h : step (.resolve true true now) s = .ok s2)
    (hc : lookupRep s.rep s.task.creator = some dc)
    (hw : lookupRep s.rep s.task.worker = some dw)
    (hne : s.task.creator ≠ s.task.worker) :
    s2.credits = s.credits ++ [(s.task.creator, s.task.bounty)] ∧
    s2.task.status = .Completed ∧ s2.task.status ≠ .Open ∧
    s2.task.worker = s.task.worker ∧
    (∃ dc2, lookupRep s2.rep s.task.creator = some dc2 ∧
      dc2.disputesWon = dc.disputesWon + 1 ∧
      dc2.disputesLost = dc.disputesLost) ∧
    (∃ dw2, lookupRep s2.rep s.task.worker = some dw2 ∧
      dw2.disputesLost = dw.disputesLost + 1 ∧
      dw2.disputesWon = dw.disputesWon) := by
  obtain ⟨_, _, _, ht2, _, hwk2, _, _, _, _, hcrIf⟩ := resolveDispute_ok h
  rw [if_pos rfl] at hcrIf
  have hrep := resolveDispute_fc_ok_rep h
  have e1 : tryUpdateReputation s.rep s.task.worker
      (-((s.task.bounty / 2000 : Nat) : Int)) 0 =
      setRep s.rep s.task.worker
        (updateReputationData dw (-((s.task.bounty / 2000 : Nat) : Int)) 0).1 :=
    tryUpdateReputation_some hw
  have lc1 : lookupRep
      (setRep s.rep s.task.worker
        (updateReputationData dw (-((s.task.bounty / 2000 : Nat) : Int)) 0).1)
      s.task.creator = some dc := by
    rw [lookupRep_setRep_ne _ (Ne.symm hne)]
    exact hc
  have e2 : tryRecordDisputeResult
      (setRep s.rep s.task.worker
        (updateReputationData dw (-((s.task.bounty / 2000 : Nat) : Int)) 0).1)
      s.task.creator true =
      setRep
        (setRep s.rep s.task.worker
          (updateReputationData dw
            (-((s.task.bounty / 2000 : Nat) : Int)) 0).1)
        s.task.creator (recordDisputeResultData dc true) :=
    tryRecordDisputeResult_some lc1
  have lw2 : lookupRep
      (setRep
        (setRep s.rep s.task.worker
          (updateReputationData dw
            (-((s.task.bounty / 2000 : Nat) : Int)) 0).1)
        s.task.creator (recordDisputeResultData dc true))
      s.task.worker =
      some (updateReputationData dw
        (-((s.task.bounty / 2000 : Nat) : Int)) 0).1 := by
    rw [lookupRep_setRep_ne _ hne]
    exact lookupRep_setRep_self _ hw
  have e3 := tryRecordDisputeResult_some (w := false) lw2
  rw [e1, e2, e3] at hrep
  refine ⟨hcrIf, ht2, by rw [ht2]; simp, hwk2, ?_, ?_⟩
  · refine ⟨recordDisputeResultData dc true, ?_, ?_, ?_⟩
    · rw [hrep, lookupRep_setRep_ne _ (Ne.symm hne)]
      exact lookupRep_setRep_self _ lc1
    · simp [recordDisputeResultData]
    · simp [recordDisputeResultData]
  · refine ⟨recordDisputeResultData
      (updateReputationData dw (-((s.task.bounty / 2000 : Nat) : Int)) 0).1
      false, ?_, ?_, ?_⟩
    · rw [hrep]
      exact lookupRep_setRep_self _ lw2
    · rfl
    · rfl

/-- Witness for `resolve_favor_creator_spec` on the concrete disputed
scenario (creator 1, worker 2, bounty 10000). -/
theorem resolve_favor_creator_spec_witness :
    lookupRep sDisputedC.rep sDisputedC.task.creator = some freshRepData ∧
    lookupRep sDisputedC.rep sDisputedC.task.worker = some freshRepData ∧
    sDisputedC.task.creator ≠ sDisputedC.task.worker ∧
    (sResolvedC.credits = sDisputedC.credits ++
        [(sDisputedC.task.creator, sDisputedC.task.bounty)] ∧
     sResolvedC.task.status = .Completed ∧
     sResolvedC.task.status ≠ .Open ∧
     sResolvedC.task.worker = sDisputedC.task.worker ∧
     (∃ dc2, lookupRep sResolvedC.rep sDisputedC.task.creator = some dc2 ∧
       dc2.disputesWon = freshRepData.disputesWon + 1 ∧
       dc2.disputesLost = freshRepData.disputesLost) ∧
     (∃ dw2, lookupRep sResolvedC.rep sDisputedC.task.worker = some dw2 ∧
       dw2.disputesLost = freshRepData.disputesLost + 1 ∧
       dw2.disputesWon = freshRepData.disputesWon)) :=
  ⟨by decide, by decide, by decide,
    resolve_favor_creator_spec sDisputedC sResolvedC 70 freshRepData
      freshRepData rfl (by decide) (by decide) (by decide)⟩

/-- Counterexample to claim C4 as stated: after a successful
favor-creator ruling the task is `Completed` — not reopened to `Open` —
and the worker field is still set to worker 2, so the task is not
reassignable. -/
theorem resolve_favor_creator_counterexample :
    step (Op.resolve true true 70) sDisputedC = .ok sResolvedC ∧
    sResolvedC.task.status = .Completed ∧
    sResolvedC.task.status ≠ .Open ∧
    sResolvedC.task.worker = 2 ∧ (2 : Addr) ≠ 0 :=
  ⟨rfl, by decide, by decide, by decide, by decide⟩

/-! ## Claim C5 -/

/-- Claim C5 (amended): a successful `approveTask` updates the worker's
reputation record with score `+ floor(bounty / 1000)` (the GROSS bounty,
not `floor(netPayment / 1000)`), `tasksCompleted + 1`, and
`totalEarned + bounty` (again the gross bounty, not `netPayment`). -/
theorem approve_reputation_spec (s s2 : TMState) (actor : Addr) (now : Nat)
    (dw : RepData)
    (h : step (.approve actor now) s = .ok s2)
    (hw : lookupRep s.rep s.task.worker = some dw)
    (hne : s.task.creator ≠ s.task.worker) :
    ∃ dw2, lookupRep s2.rep s.task.worker = some dw2 ∧
      dw2.score = dw.score + s.task.bounty / 1000 ∧
      dw2.tasksCompleted = dw.tasksCompleted + 1 ∧
      dw2.totalEarned = dw.totalEarned + s.task.bounty := by
  obtain ⟨r1, evs, r2, h1, h2, h3⟩ := approveTask_ok_rep h
  obtain ⟨d1, hd1, hr1, _⟩ := updateReputation_some_shape h1
  rw [hw] at hd1
  injection hd1 with hd1
  subst hd1
  have lr1 : lookupRep r1 s.task.worker =
      some (updateReputationData dw ((s.task.bounty / 1000 : Nat) : Int) 1).1 := by
    rw [hr1]
    exact lookupRep_setRep_self _ hw
  obtain ⟨d2, hd2, hr2⟩ := recordTaskStats_some_shape h2
  rw [lr1] at hd2
  injection hd2 with hd2
  subst hd2
  obtain ⟨d3, hd3, hr3⟩ := recordTaskStats_some_shape h3
  refine ⟨recordTaskStatsData
      (updateReputationData dw ((s.task.bounty / 1000 : Nat) : Int) 1).1
      s.task.bounty false, ?_, ?_, ?_, ?_⟩
  · rw [hr3, lookupRep_setRep_ne _ hne, hr2]
    exact lookupRep_setRep_self _ lr1
  · show (updateReputationData dw
        ((s.task.bounty / 1000 : Nat) : Int) 1).1.score =
      dw.score + s.task.bounty / 1000
    rw [(updateReputationData_fields dw _ 1).1, updateScore_ofNat]
  · rfl
  · rfl

/-- Witness for `approve_reputation_spec` on the concrete approval
scenario. -/
theorem approve_reputation_spec_witness :
    lookupRep sSubmittedC.rep sSubmittedC.task.worker = some freshRepData ∧
    sSubmittedC.task.creator ≠ sSubmittedC.task.worker ∧
    (∃ dw2, lookupRep sApprovedC.rep sSubmittedC.task.worker = some dw2 ∧
      dw2.score = freshRepData.score + sSubmittedC.task.bounty / 1000 ∧
      dw2.tasksCompleted = freshRepData.tasksCompleted + 1 ∧
      dw2.totalEarned = freshRepData.totalEarned + sSubmittedC.task.bounty) :=
  ⟨by decide, by decide,
    approve_reputation_spec sSubmittedC sApprovedC 1 50 freshRepData rfl
      (by decide) (by decide)⟩

/-- Counterexample to claim C5 as stated: with bounty 10000 and fee rate
250 bp, `netPayment = 9750`, so the claim predicts a score delta of
`floor(9750/1000) = 9` and `totalEarned` delta 9750; the code gives the
worker score 10 (`floor(10000/1000)`) and `totalEarned` 10000 — the gross
bounty, not the net payment. -/
theorem approve_reputation_counterexample :
    lookupRep sSubmittedC.rep 2 = some freshRepData ∧
    (lookupRep sApprovedC.rep 2).map RepData.score = some 10 ∧
    (lookupRep sApprovedC.rep 2).map RepData.totalEarned = some 10000 ∧
    (10000 - 10000 * 250 / 10000) / 1000 = 9 ∧ (10 : Nat) ≠ 9 ∧
    10000 - 10000 * 250 / 10000 = 9750 ∧ (10000 : Nat) ≠ 9750 := by
  decide

/-! ## Claim C8 -/

/-- Folding a sequence of `updateReputation` calls (score delta and
tasksCompleted increment) over one record. -/
def applyUpdates (d : RepData) (updates : List (Int × Nat)) : RepData :=
  updates.foldl (fun d u => (updateReputationData d u.1 u.2).1) d

/-- Claim C8: starting from any tier-consistent record (such as the mint
state), after any sequence of reputation updates the stored tier equals
the pure threshold function of the current score; moreover the next score
is always `toNat (score + delta)` — in particular a dispute-loss delta
larger than the current score clamps the score to 0, never below. -/
theorem tier_consistency (d : RepData) (updates : List (Int × Nat))
    (h : d.tier = calculateTier d.score) :
    (applyUpdates d updates).tier =
      calculateTier (applyUpdates d updates).score ∧
    (∀ (delta : Int) (tc : Nat),
      ((updateReputationData (applyUpdates d updates) delta tc).1).score =
        (((applyUpdates d updates).score : Int) + delta).toNat) ∧
    (∀ (delta : Int) (tc : Nat), delta < 0 →
      ((applyUpdates d updates).score : Int) + delta ≤ 0 →
      ((updateReputationData (applyUpdates d updates) delta tc).1).score =
        0) := by
  have hcons : (applyUpdates d updates).tier =
      calculateTier (applyUpdates d updates).score := by
    induction updates generalizing d with
    | nil => simpa [applyUpdates] using h
    | cons u us ih =>
      simp only [applyUpdates, List.foldl] at ih ⊢
      exact ih _ (updateReputationData_tier_eq d u.1 u.2)
  refine ⟨hcons, ?_, ?_⟩
  · intro delta tc
    rw [(updateReputationData_fields _ delta tc).1, updateScore_eq_toNat]
  · intro delta tc _ hneg
    rw [(updateReputationData_fields _ delta tc).1, updateScore_eq_toNat]
    omega

/-- Witness for `tier_consistency`: mint state, a +6000 then -200 update
(tier ends Gold), and a dispute loss far larger than the score clamps to
0. -/
theorem tier_consistency_witness :
    freshRepData.tier = calculateTier freshRepData.score ∧
    (applyUpdates freshRepData [(6000, 1), (-200, 0)]).tier =
      calculateTier (applyUpdates freshRepData [(6000, 1), (-200, 0)]).score ∧
    ((updateReputationData (applyUpdates freshRepData [(6000, 1), (-200, 0)])
        (-999999) 0).1).score =
      (((applyUpdates freshRepData [(6000, 1), (-200, 0)]).score : Int) +
        (-999999)).toNat ∧
    ((updateReputationData (applyUpdates freshRepData [(6000, 1), (-200, 0)])
        (-999999) 0).1).score = 0 :=
  ⟨by decide,
    (tier_consistency freshRepData [(6000, 1), (-200, 0)] (by decide)).1,
    (tier_consistency freshRepData [(6000, 1), (-200, 0)] (by decide)).2.1
      (-999999) 0,
    (tier_consistency freshRepData [(6000, 1), (-200, 0)] (by decide)).2.2
      (-999999) 0 (by decide) (by decide)⟩

/-! ## Claim C9 -/

lemma bool_or_masked (x c : Bool) : (x || (!x && c)) = (x || c) := by
  cases x <;> cases c <;> rfl

lemma hasAch_update (d : RepData) (sc : Int) (tc : Nat) (a : Ach) :
    hasAch (updateReputationData d sc tc).1 a =
      (hasAch d a || achCond (updateReputationData d sc tc).1 a) := by
  cases a <;> exact bool_or_masked _ _

lemma count_if_singleton (p : Prop) [Decidable p] (b a : Ach) :
    (if p then [b] else []).count a = if p ∧ b = a then 1 else 0 := by
  split <;> by_cases hba : b = a <;> simp_all [List.count_cons]

lemma count_update (d : RepData) (sc : Int) (tc : Nat) (a : Ach) :
    ((updateReputationData d sc tc).2).count a =
      (if (!(hasAch d a) && achCond (updateReputationData d sc tc).1 a)
        then 1 else 0) := by
  cases a <;>
    simp [updateReputationData, checkAchievements, hasAch, achCond,
      List.count_append, count_if_singleton]

/-- Claim C9: achievement unlocking is idempotent and monotonic.  First
part: from a record that does not yet hold achievement `a`, two
consecutive reputation updates whose results both satisfy `a`'s unlock
predicate produce exactly one unlock event for `a` across the two updates,
and the record holds `a` afterwards.  Second part: re-checking an
already-unlocked achievement is a no-op — the flag stays set (never
revoked) and zero further unlock events are emitted. -/
theorem achievement_idempotent :
    (∀ (d0 : RepData) (a : Ach) (d1 : Int) (t1 : Nat) (d2 : Int) (t2 : Nat),
      hasAch d0 a = false →
      achCond (updateReputationData d0 d1 t1).1 a = true →
      achCond (updateReputationData
        (updateReputationData d0 d1 t1).1 d2 t2).1 a = true →
      ((updateReputationData d0 d1 t1).2 ++
        (updateReputationData
          (updateReputationData d0 d1 t1).1 d2 t2).2).count a = 1 ∧
      hasAch (updateReputationData
        (updateReputationData d0 d1 t1).1 d2 t2).1 a = true) ∧
    (∀ (d : RepData) (a : Ach) (dd : Int) (t : Nat),
      hasAch d a = true →
      hasAch (updateReputationData d dd t).1 a = true ∧
      ((updateReputationData d dd t).2).count a = 0) := by
  constructor
  · intro d0 a d1 t1 d2 t2 h0 c1 c2
    have hA1 : hasAch (updateReputationData d0 d1 t1).1 a = true := by
      rw [hasAch_update, h0, c1]
      rfl
    constructor
    · rw [List.count_append, count_update, count_update, h0, hA1, c1]
      simp
    · rw [hasAch_update, hA1]
      rfl
  · intro d a dd t h1
    refine ⟨by rw [hasAch_update, h1]; rfl, ?_⟩
    rw [count_update, h1]
    simp

/-- Witness for `achievement_idempotent`: two consecutive task
completions from the mint state both satisfy FIRST_TASK's predicate;
exactly one unlock event is emitted, and a further update on the unlocked
record emits none. -/
theorem achievement_idempotent_witness :
    hasAch freshRepData Ach.FIRST_TASK = false ∧
    achCond (updateReputationData freshRepData 0 1).1 Ach.FIRST_TASK =
      true ∧
    achCond (updateReputationData
      (updateReputationData freshRepData 0 1).1 0 1).1 Ach.FIRST_TASK =
      true ∧
    (((updateReputationData freshRepData 0 1).2 ++
        (updateReputationData
          (updateReputationData freshRepData 0 1).1 0 1).2).count
        Ach.FIRST_TASK = 1 ∧
     hasAch (updateReputationData
       (updateReputationData freshRepData 0 1).1 0 1).1 Ach.FIRST_TASK =
       true) :=
  ⟨by decide, by decide, by decide,
    achievement_idempotent.1 freshRepData Ach.FIRST_TASK 0 1 0 1
      (by decide) (by decide) (by decide)⟩

end TaskChainz
